import Mathlib

/-
Verification of the feature-role inference and dataset-assembly engine of
LightAutoML (`lightautoml/reader/base.py`).

The development shallowly embeds the parts of `reader/base.py` that the
checked properties are about:

  * `check_class_target` (target validation / encoding for classification
    tasks, including the multiclass cross-validation interaction);
  * `_guess_role` (heuristic role inference for a single column);
  * `_is_ok_feature` (nan-rate / constant-rate column filter);
  * `Reader.upd_used_features` (used-feature bookkeeping);
  * the advanced-role-guess drop pass at the end of
    `advanced_roles_guess` + `fit_read`;
  * the windowed-target alignment check of `DictToPandasSeqReader.parse_seq`;
  * the deterministic subsampling step of `fit_read`.

Target values are modelled as integers (`ℤ`): the classification-target
claims are about distinct-value sets, counts and the contiguous-range
check `np.arange(k) == np.sort(uniques)`, none of which involve missing
values (the reader asserts the absence of NaN before these steps, an
assertion that cannot fire for integer-valued columns).  Feature columns
are modelled as lists of optional values (`none` = NaN).  Rates and
predictive scores (floats in the source) are modelled as rationals.
-/

deriving instance DecidableEq for Except

/-- Association-list lookup: first pair whose key equals `k` (the shallow
model of a Python dict read `d[k]` / `d.get(k)`). -/
def alookup {α β : Type} [DecidableEq α] : List (α × β) → α → Option β
  | [], _ => none
  | p :: t, k => if p.1 = k then some p.2 else alookup t k

/-- Distinct values of a list in order of first appearance (the order the
pandas hash table produces for `value_counts` before sorting by count). -/
def unique_first (l : List ℤ) : List ℤ :=
  l.foldl (fun acc a => if a ∈ acc then acc else acc ++ [a]) []

/-- Descending-count order on `(value, count)` pairs. -/
def desc_cnt (a b : ℤ × ℕ) : Prop := b.2 ≤ a.2

instance : DecidableRel desc_cnt := fun a b => (inferInstance : Decidable (b.2 ≤ a.2))

instance : IsTotal (ℤ × ℕ) desc_cnt := ⟨fun a b => le_total b.2 a.2⟩

instance : IsTrans (ℤ × ℕ) desc_cnt := ⟨fun _ _ _ h1 h2 => le_trans h2 h1⟩

/-- Stable sort by descending count. -/
def sort_desc_snd (l : List (ℤ × ℕ)) : List (ℤ × ℕ) := List.insertionSort desc_cnt l

/-- Model of `pandas.Series.value_counts(dropna=False)` on an integer
column: pairs `(value, multiplicity)` sorted by descending multiplicity,
ties in first-appearance order. -/
def value_counts (t : List ℤ) : List (ℤ × ℕ) :=
  sort_desc_snd ((unique_first t).map (fun v => (v, t.count v)))

/-- Model of `np.sort` on a list of integers. -/
def sort_asc_int (l : List ℤ) : List ℤ := List.insertionSort (· ≤ ·) l

/-- Task kinds of `lightautoml.tasks.Task` relevant to the reader
(`task.name` string compared against literals in the source). -/
inductive TaskName
  | binary
  | multiclass
  | multilabel
  | regression
  | multireg
deriving DecidableEq, Repr

/-- Result of `check_class_target`: the (possibly re-encoded) target
column, the optional class mapping, the reader field `self.cv` after the
call, and whether the non-fatal fold-reduction warning was emitted. -/
structure CCTOut where
  target : List ℤ
  mapping : Option (List (ℤ × ℕ))
  cv : ℕ
  warned : Bool
deriving DecidableEq, Repr

/-- True exactly when a modelled computation ended in a Python raise. -/
def except_failed {ε α : Type} : Except ε α → Bool
  | Except.error _ => true
  | Except.ok _ => false

/-- Multiclass cross-validation interaction of `check_class_target`
(reader/base.py lines 447-463): `smallest` is
`target.value_counts().values[-1]`, the last (hence least) count of the
descending-sorted count table; `smallest == 1` raises, `smallest < cv`
shrinks `self.cv` to `smallest` and warns.  Returns the new `cv` together
with the warning flag. -/
def cct_cv_check (task : TaskName) (cv : ℕ) (cnts : List (ℤ × ℕ)) :
    Except String (ℕ × Bool) :=
  if task = TaskName.multiclass then
    cnts.getLast?.elim (Except.error "IndexError: values[-1] of an empty count table")
      (fun p =>
        if p.2 = 1 then
          Except.error "UnsplittableTargetError: class of target has only 1 sample, dataset cannot be splitted stratified"
        else if p.2 < cv then Except.ok (p.2, true)
        else Except.ok (cv, false))
  else Except.ok (cv, false)

/-- The index `cnts.index.values` of the count table: distinct target
values in descending-count order. -/
def cct_uniques (t : List ℤ) : List ℤ := (value_counts t).map Prod.fst

/-- The array `srtd = np.sort(unqiues)` of `check_class_target`. -/
def cct_srtd (t : List ℤ) : List ℤ := sort_asc_int (cct_uniques t)

/-- Encoding part of `check_class_target` (reader/base.py lines 465-474).
If the ascending-sorted distinct values are exactly `0..k-1`
(`(np.arange(srtd.shape[0]) == srtd).all()`), the column is returned
unchanged with no mapping, after the class-count assertions; otherwise a
mapping `value -> position in the descending-count order` is built and the
mapped column is returned. -/
def cct_encode (task : TaskName) (cv2 : ℕ) (warned : Bool) (target : List ℤ) :
    Except String CCTOut :=
  if cct_srtd target = (List.range (cct_uniques target).length).map Int.ofNat then
    if (cct_uniques target).length ≤ 1 then
      Except.error "InvalidTargetError: less than 2 unique values in target"
    else if (task = TaskName.binary ∨ task = TaskName.multilabel) ∧
        (cct_uniques target).length ≠ 2 then
      Except.error "InvalidTargetError: binary task and more than 2 values in target"
    else Except.ok ⟨target, none, cv2, warned⟩
  else
    let mapping := (cct_uniques target).enum.map (fun p => (p.2, p.1))
    Except.ok ⟨target.map (fun v => Int.ofNat ((alookup mapping v).getD 0)),
               some mapping, cv2, warned⟩

/-- Model of `PandasToPandasReader.check_class_target` (reader/base.py
lines 437-474) on an integer target column: the multiclass cv interaction
runs first, then the contiguous-range check and encoding.  Failed
assertions and raises are modelled as `Except.error`. -/
def check_class_target (task : TaskName) (cv : ℕ) (target : List ℤ) :
    Except String CCTOut :=
  (cct_cv_check task cv (value_counts target)).bind
    (fun p => cct_encode task p.1 p.2 target)

/-- Role name tags: the `ColumnRole.name` strings the reader dispatches on. -/
inductive RName
  | numeric
  | category
  | datetime
  | drop
deriving DecidableEq, Repr

/-- Shallow model of `ColumnRole`: the name tag, the `force_input` flag and
the storage dtype as a string tag (`NumericRole(np.float32)`,
`CategoryRole(object)`, `DatetimeRole(np.datetime64)`). -/
structure Role where
  name : RName
  force_input : Bool
  dtype : String
deriving DecidableEq, Repr

/-- `DropRole()` with its default `force_input = False`. -/
def drop_role : Role := ⟨RName.drop, false, ""⟩

/-- Per-cell outcome of `pd.to_datetime` by raised exception class
(`ValueError`, `AttributeError` and `TypeError` are caught by `_guess_role`;
anything else propagates to the caller). -/
inductive DtParse
  | ok
  | valueError
  | attributeError
  | typeError
  | otherError
deriving DecidableEq, Repr, Inhabited

/-- Outcome of the timezone-localization probe `t.dt.tz_localize("UTC")`. -/
inductive TzOut
  | ok
  | typeError
  | otherError
deriving DecidableEq, Repr, Inhabited

/-- One cell of a sampled column: missing flag, the value (meaningful when
not missing), whether `astype(num_dtype)` succeeds on it (that cast raises
`ValueError` or `TypeError` on failure, both caught), and its
`pd.to_datetime` outcome. -/
structure Cell where
  isNull : Bool
  val : ℤ
  num_castable : Bool
  dt_parse : DtParse
deriving DecidableEq, Repr, Inhabited

/-- A sampled column for `_guess_role`: the cells plus the
timezone-localization behaviour of the parsed series (a property of the
parsed datetime data as a whole). -/
structure ColumnSample where
  cells : List Cell
  tz : TzOut
deriving DecidableEq, Repr

/-- Column-level outcome of `pd.to_datetime(feature, format=date_format)`:
the first failing cell determines the raised exception class; an empty
column parses vacuously. -/
def column_dt_parse (cells : List Cell) : DtParse :=
  match cells.find? (fun c => c.dt_parse ≠ DtParse.ok) with
  | some c => c.dt_parse
  | none => DtParse.ok

/-- Model of `PandasToPandasReader._guess_role` (reader/base.py lines
494-539): try the numeric cast (success on every cell, vacuous on an empty
column); else try `pd.to_datetime` — a caught parse failure gives
`CategoryRole(object)`, on success the tz-localization probe is run and a
`TypeError` there is treated like success (`DatetimeRole`), while a bare
`except:` maps any other probe exception to `CategoryRole(object)`. -/
def guess_role (col : ColumnSample) : Except String Role :=
  if col.cells.all (fun c => c.num_castable) then
    Except.ok ⟨RName.numeric, false, "float32"⟩
  else
    match column_dt_parse col.cells with
    | DtParse.ok =>
      match col.tz with
      | TzOut.ok => Except.ok ⟨RName.datetime, false, "datetime64"⟩
      | TzOut.typeError => Except.ok ⟨RName.datetime, false, "datetime64"⟩
      | TzOut.otherError => Except.ok ⟨RName.category, false, "object"⟩
    | DtParse.valueError => Except.ok ⟨RName.category, false, "object"⟩
    | DtParse.attributeError => Except.ok ⟨RName.category, false, "object"⟩
    | DtParse.typeError => Except.ok ⟨RName.category, false, "object"⟩
    | DtParse.otherError => Except.error "uncaught exception from pd.to_datetime"

/-- Missing-value fraction `feature.isnull().mean()` of a column
(`none` cells are NaN). -/
def null_frac (col : List (Option ℤ)) : ℚ :=
  mkRat (col.countP (fun c => c.isNone)) col.length

/-- Maximal multiplicity among non-missing values of a column. -/
def most_freq_top (col : List (Option ℤ)) : ℕ :=
  ((col.filterMap id).map (fun v => (col.filterMap id).count v)).foldr max 0

/-- Share of the most frequent non-missing value, over the full column
length: the maximal multiplicity among non-missing values divided by
`feature.shape[0]`. -/
def most_freq_share (col : List (Option ℤ)) : ℚ :=
  mkRat (most_freq_top col) col.length

/-- Model of `PandasToPandasReader._is_ok_feature` (reader/base.py lines
541-555): reject when `isnull().mean() >= max_nan_rate`, else when
`value_counts().values[0] / shape[0] >= max_constant_rate` (pandas
`value_counts()` drops NaN and sorts counts descending, so `.values[0]` is
the top count); `none` models the `IndexError` of `.values[0]` on an empty
count table. -/
def is_ok_feature (max_nan_rate max_constant_rate : ℚ) (col : List (Option ℤ)) :
    Option Bool :=
  if null_frac col ≥ max_nan_rate then some false
  else
    match (value_counts (col.filterMap id)).head? with
    | none => none
    | some p =>
      if mkRat p.2 col.length ≥ max_constant_rate then some false else some true

/-- Lexicographic comparison of character lists by character code. -/
def chars_le : List Char → List Char → Bool
  | [], _ => true
  | _ :: _, [] => false
  | c :: cs, d :: ds =>
    if c.toNat < d.toNat then true
    else if d.toNat < c.toNat then false
    else chars_le cs ds

/-- A concrete total order on strings, standing in for the unspecified
internal order in which CPython serializes a `set` of strings back to a
list; the only property relied upon is that it is a fixed order unrelated
to insertion order. -/
def str_le (a b : String) : Prop := chars_le a.data b.data = true

instance : DecidableRel str_le := fun a b =>
  (inferInstance : Decidable (chars_le a.data b.data = true))

/-- Model of `list(set(l))` for a list of strings: the set forgets the
insertion order and duplicates; the serialization is in the canonical
`str_le` order. -/
def py_set_list (l : List String) : List String :=
  (List.insertionSort str_le l).dedup

/-- Model of `Reader.upd_used_features` (reader/base.py lines 120-137):
`curr = set(self.used_features)`, union with `add`, difference with
`remove`, then `self._used_features = list(curr)`. -/
def upd_used_features (used : List String) (add : Option (List String))
    (remove : Option (List String)) : List String :=
  let curr := py_set_list used
  let curr2 := match add with
    | some a => py_set_list (curr ++ a)
    | none => curr
  let curr3 := match remove with
    | some rm => curr2.filter (fun x => ¬ x ∈ rm)
    | none => curr2
  curr3

/-- Model of a Python dict update `{**d, **u}` on association lists:
existing keys keep their position with the updated value, new keys of `u`
are appended. -/
def dict_update (d u : List (String × Role)) : List (String × Role) :=
  d.map (fun p => (p.1, (alookup u p.1).getD p.2))
    ++ u.filter (fun p => (alookup d p.1).isNone)

/-- Binary maximum on rationals (`pd.concat([...], axis=1).max(axis=1)`
applied to the pair of a null score and a real score). -/
def max_q (a b : ℚ) : ℚ := if a ≤ b then b else a

/-- Tail of `advanced_roles_guess` (reader/base.py lines 616-666).
`base_roles` is `dataset.roles` (the reader roles when the pass starts);
`rule_roles` stands for the merged verdicts of the external rule collaborators
(`rule_based_roles_guess` / `rule_based_cat_handler_guess`); `real` is the
concatenated `max_score` table of the scored features and `null_score` the
external `get_null_scores` collaborator.  Every scored feature whose final
score `max(null, real)` is below `drop_score_co` is re-mapped to `DropRole()`
in the returned dict. -/
def rejected_feats (real : List (String × ℚ)) (null_score : String → ℚ)
    (drop_co : ℚ) : List String :=
  ((real.map (fun p => (p.1, max_q (null_score p.1) p.2))).filter
    (fun p => p.2 < drop_co)).map Prod.fst

/-- See `rejected_feats`: the merged role dict with every rejected feature
re-mapped to `DropRole()`. -/
def advanced_roles_tail (base_roles rule_roles : List (String × Role))
    (real : List (String × ℚ)) (null_score : String → ℚ) (drop_co : ℚ) :
    List (String × Role) :=
  dict_update (dict_update base_roles rule_roles)
    ((rejected_feats real null_score drop_co).map (fun f => (f, drop_role)))

/-- The read `self._roles[x].force_input` of `fit_read` line 401 (in
`fit_read` every key of `new_roles` is a key of `self._roles`, so the
default branch is unreachable there). -/
def force_of (self_roles : List (String × Role)) (x : String) : Bool :=
  ((alookup self_roles x).map (fun r => r.force_input)).getD false

/-- The advanced-guess pruning step of `fit_read` (reader/base.py lines
397-404): `droplist` collects the features whose new role is Drop and whose
previous role is not force-pinned; they are removed from the used features
and from the role dict; everything else keeps its `new_roles` entry. -/
def prune_droplist (self_roles : List (String × Role))
    (new_roles : List (String × Role)) : List String :=
  (new_roles.filter
    (fun p => p.2.name = RName.drop ∧ force_of self_roles p.1 = false)).map Prod.fst

/-- See `prune_droplist`: the new `self._roles` keeps the `new_roles` entries
outside the droplist, the new `self._used_features` is
`upd_used_features(remove=droplist)`. -/
def fit_read_prune (self_roles : List (String × Role)) (used : List String)
    (new_roles : List (String × Role)) : List (String × Role) × List String :=
  (new_roles.filter (fun p => ¬ p.1 ∈ prune_droplist self_roles new_roles),
   upd_used_features used none (some (prune_droplist self_roles new_roles)))

/-- The full advanced-roles pass of `fit_read` (lines 398-404): run
`advanced_roles_guess` from the current reader roles, then prune.  Returns
the new `self._roles` and the new `self._used_features`. -/
def fit_read_advanced (self_roles : List (String × Role)) (used : List String)
    (rule_roles : List (String × Role)) (real : List (String × ℚ))
    (null_score : String → ℚ) (drop_co : ℚ) : List (String × Role) × List String :=
  fit_read_prune self_roles used
    (advanced_roles_tail self_roles rule_roles real null_score drop_co)

/-- Windowed-target alignment of `DictToPandasSeqReader.parse_seq`
(reader/base.py lines 856-878).  `idx_data` / `idx_target` are
`seq_idx_data` / `seq_idx_target` as produced by the external index
strategy (`TopInd` / `IDSInd`, outside this module).  When the windowed
target is non-null its length must equal the data-index length, otherwise
the assert raises; the sequential dataset is then indexed by the target
index when present, else by the data index. -/
def parse_seq_align (idx_data : List (List ℕ))
    (idx_target : Option (List (List ℕ))) : Except String (List (List ℕ)) :=
  match idx_target with
  | none => Except.ok idx_data
  | some t =>
    if idx_data.length = t.length then Except.ok t
    else Except.error "MisalignedIndexError: time series ids do not match"

/-- Reader configuration relevant to the subsampling / simple-guess pass. -/
structure ReaderCfg where
  samples : Option ℕ
  max_nan_rate : ℚ
  max_constant_rate : ℚ
  cv : ℕ
  random_state : ℕ

/-- Deterministic linear congruential step: a concrete stand-in for the
pandas seeded row sampler.  The only property relied upon is that the
selection is a function of the seed and the data alone. -/
def lcg_step (seed : ℕ) : ℕ := (1103515245 * seed + 12345) % 2147483648

/-- Seeded selection of `n` rows. -/
def sample_rows (n seed : ℕ) (rows : List (List Cell)) : List (List Cell) :=
  (List.range n).map (fun i => rows.getD (lcg_step (seed + i) % rows.length) [])

/-- Subsampling step of `fit_read` (reader/base.py lines 326-328, likewise
`parse_seq` lines 775-777 and the sequential `fit_read` lines 960-964): at
most `samples` rows drawn with the constant literal seed 42 — not with
`self.random_state`. -/
def fit_read_subsample (cfg : ReaderCfg) (rows : List (List Cell)) :
    List (List Cell) :=
  match cfg.samples with
  | some s => if s < rows.length then sample_rows s 42 rows else rows
  | none => rows

/-- A raw training table for the plain reader: column names, per-column
timezone-probe attributes, and rows of cells. -/
structure Table where
  names : List String
  tzs : List TzOut
  rows : List (List Cell)

/-- Column `j` of a row-major table. -/
def col_of (rows : List (List Cell)) (j : ℕ) : List Cell :=
  rows.map (fun r => r.getD j default)

/-- Forget the type-probe structure of cells, keeping missingness and value
(the view `_is_ok_feature` works on). -/
def cells_to_col (cells : List Cell) : List (Option ℤ) :=
  cells.map (fun c => if c.isNull then none else some c.val)

/-- The simple role-inference pass of `fit_read` (reader/base.py lines
330-380) restricted to undeclared columns: subsample with the constant
seed, then per column either `_is_ok_feature` + `_guess_role`, or Drop. -/
def simple_infer_roles (cfg : ReaderCfg) (t : Table) :
    List (String × Except String Role) :=
  let sub := fit_read_subsample cfg t.rows
  (List.range t.names.length).map (fun j =>
    (t.names.getD j "",
      if is_ok_feature cfg.max_nan_rate cfg.max_constant_rate
          (cells_to_col (col_of sub j)) = some true then
        guess_role ⟨col_of sub j, t.tzs.getD j TzOut.ok⟩
      else Except.ok drop_role))

/-
Lemmas and claim theorems.
-/

theorem mem_unique_first_aux (l : List ℤ) : ∀ (acc : List ℤ) (v : ℤ),
    (v ∈ l.foldl (fun acc a => if a ∈ acc then acc else acc ++ [a]) acc) ↔ v ∈ acc ∨ v ∈ l := by
  induction l with
  | nil => intro acc v; simp
  | cons a t ih =>
    intro acc v
    simp only [List.foldl_cons]
    by_cases h : a ∈ acc
    · rw [if_pos h, ih]
      simp only [List.mem_cons]
      constructor
      · rintro (hv | hv)
        · exact Or.inl hv
        · exact Or.inr (Or.inr hv)
      · rintro (hv | hv | hv)
        · exact Or.inl hv
        · exact Or.inl (by rwa [hv])
        · exact Or.inr hv
    · rw [if_neg h, ih]
      simp [List.mem_append, List.mem_cons, or_assoc]

theorem mem_unique_first {l : List ℤ} {v : ℤ} : v ∈ unique_first l ↔ v ∈ l := by
  unfold unique_first
  rw [mem_unique_first_aux]
  simp

theorem value_counts_perm (t : List ℤ) :
    (value_counts t).Perm ((unique_first t).map (fun v => (v, t.count v))) :=
  List.perm_insertionSort desc_cnt _

theorem mem_value_counts {t : List ℤ} {p : ℤ × ℕ} :
    p ∈ value_counts t ↔ p.1 ∈ t ∧ p.2 = t.count p.1 := by
  rw [(value_counts_perm t).mem_iff, List.mem_map]
  constructor
  · rintro ⟨v, hv, rfl⟩
    exact ⟨mem_unique_first.mp hv, rfl⟩
  · rintro ⟨h1, h2⟩
    refine ⟨p.1, mem_unique_first.mpr h1, ?_⟩
    exact Prod.ext rfl h2.symm

theorem sorted_value_counts (t : List ℤ) : (value_counts t).Sorted desc_cnt :=
  List.sorted_insertionSort desc_cnt _

theorem value_counts_getLast_min {t : List ℤ} {y : ℤ × ℕ}
    (hy : (value_counts t).getLast? = some y) :
    ∀ x ∈ value_counts t, y.2 ≤ x.2 := by
  rcases List.getLast?_eq_some_iff.mp hy with ⟨ys, hys⟩
  intro x hx
  have hs := sorted_value_counts t
  rw [hys] at hs hx
  rcases List.mem_append.mp hx with h | h
  · exact (List.pairwise_append.mp hs).2.2 x h y (by simp)
  · simp only [List.mem_singleton] at h
    subst h
    exact le_rfl

theorem cct_uniques_length_of_srtd {target : List ℤ} {k : ℕ}
    (h : cct_srtd target = (List.range k).map Int.ofNat) :
    (cct_uniques target).length = k := by
  have hlen := congrArg List.length h
  simpa [cct_srtd, sort_asc_int, (List.perm_insertionSort _ _).length_eq] using hlen

theorem cct_encode_contiguous_ok (task : TaskName) (cv2 : ℕ) (warned : Bool)
    (target : List ℤ)
    (hc : cct_srtd target = (List.range (cct_uniques target).length).map Int.ofNat)
    (hk2 : 2 ≤ (cct_uniques target).length)
    (hbin : task = TaskName.binary ∨ task = TaskName.multilabel →
      (cct_uniques target).length = 2) :
    cct_encode task cv2 warned target = Except.ok ⟨target, none, cv2, warned⟩ := by
  unfold cct_encode
  rw [if_pos hc, if_neg (by omega : ¬ (cct_uniques target).length ≤ 1),
    if_neg (fun hh => hh.2 (hbin hh.1))]

theorem cct_encode_ok_inv (task : TaskName) (cv2 : ℕ) (warned : Bool)
    (target : List ℤ) (out : CCTOut)
    (hc : cct_srtd target = (List.range (cct_uniques target).length).map Int.ofNat)
    (hok : cct_encode task cv2 warned target = Except.ok out) :
    out = ⟨target, none, cv2, warned⟩
    ∧ (task = TaskName.binary ∨ task = TaskName.multilabel →
        (cct_uniques target).length = 2) := by
  unfold cct_encode at hok
  rw [if_pos hc] at hok
  by_cases h1 : (cct_uniques target).length ≤ 1
  · rw [if_pos h1] at hok
    cases hok
  · rw [if_neg h1] at hok
    by_cases h2 : (task = TaskName.binary ∨ task = TaskName.multilabel) ∧
        (cct_uniques target).length ≠ 2
    · rw [if_pos h2] at hok
      cases hok
    · rw [if_neg h2] at hok
      have := Except.ok.inj hok
      refine ⟨this.symm, fun hb => ?_⟩
      by_contra hne
      exact h2 ⟨hb, hne⟩

theorem check_class_target_multiclass_eq (cv : ℕ) (target : List ℤ) (p : ℤ × ℕ)
    (hlast : (value_counts target).getLast? = some p) :
    check_class_target TaskName.multiclass cv target =
      if p.2 = 1 then
        Except.error "UnsplittableTargetError: class of target has only 1 sample, dataset cannot be splitted stratified"
      else if p.2 < cv then cct_encode TaskName.multiclass p.2 true target
      else cct_encode TaskName.multiclass cv false target := by
  unfold check_class_target cct_cv_check
  rw [if_pos rfl, hlast]
  by_cases h1 : p.2 = 1
  · simp [Option.elim, h1, Except.bind]
  · by_cases h2 : p.2 < cv
    · simp [Option.elim, h1, h2, Except.bind]
    · simp [Option.elim, h1, h2, Except.bind]

theorem check_class_target_not_mc_eq (task : TaskName) (cv : ℕ) (target : List ℤ)
    (h : ¬ task = TaskName.multiclass) :
    check_class_target task cv target = cct_encode task cv false target := by
  unfold check_class_target cct_cv_check
  rw [if_neg h]
  rfl

/-- Claim C1 (amended): under the binary task, `check_class_target` fails if and
only if the sorted distinct target values are exactly the contiguous range
`0..k-1` and the distinct-value count `k` is not 2.  When the distinct values
are not a contiguous zero-based range, no class-count check is performed: a
re-encoding mapping is built and the call succeeds regardless of the
distinct-value count. -/
theorem check_class_target_binary_count_iff (cv : ℕ) (target : List ℤ) :
    except_failed (check_class_target TaskName.binary cv target) = true ↔
      (cct_srtd target = (List.range (cct_uniques target).length).map Int.ofNat
        ∧ (cct_uniques target).length ≠ 2) := by
  rw [check_class_target_not_mc_eq TaskName.binary cv target (by decide)]
  unfold cct_encode
  by_cases hc : cct_srtd target = (List.range (cct_uniques target).length).map Int.ofNat
  · rw [if_pos hc]
    by_cases h1 : (cct_uniques target).length ≤ 1
    · rw [if_pos h1]
      simp only [except_failed, true_iff]
      exact ⟨hc, by omega⟩
    · rw [if_neg h1]
      by_cases h2 : (cct_uniques target).length ≠ 2
      · rw [if_pos ⟨Or.inl rfl, h2⟩]
        simp only [except_failed, true_iff]
        exact ⟨hc, h2⟩
      · rw [if_neg (fun hh => h2 hh.2)]
        simp only [except_failed, Bool.false_eq_true, false_iff, not_and]
        intro _
        exact fun hx => hx (by omega)
  · rw [if_neg hc]
    simp only [except_failed, Bool.false_eq_true, false_iff, not_and]
    intro hcc
    exact absurd hcc hc

/-- Claim C1 counterexample: a binary target with three distinct,
non-contiguous values `[3, 5, 7]` passes `check_class_target` without any
error (a mapping is silently built), refuting the claim that the binary task
fails whenever the distinct-value count differs from 2 regardless of whether
a re-encoding mapping has to be built. -/
theorem check_class_target_c1_cex :
    except_failed (check_class_target TaskName.binary 5 [(3 : ℤ), 5, 7]) = false
    ∧ (cct_uniques [(3 : ℤ), 5, 7]).length = 3 := by decide

/-- Claim C4 (amended): for a multiclass target, `smallest` (the last entry of
the descending count table) is the sample count of the least-frequent class;
if `smallest = 1`, `check_class_target` fails with the unsplittable-target
error; if `1 < smallest < cv` and the target has at least two distinct values,
validation succeeds, the fold count is reduced to `smallest` and the non-fatal
warning is emitted.  (The extra distinct-value hypothesis is forced by the
counterexample `[0, 0, 0]`: the cv reduction itself never raises, but a
single-class target subsequently fails the unique-value assertion.) -/
theorem check_class_target_multiclass_cv (cv : ℕ) (target : List ℤ) (p : ℤ × ℕ)
    (hlast : (value_counts target).getLast? = some p) :
    (∀ q ∈ value_counts target, p.2 ≤ q.2)
    ∧ (p.2 = 1 → check_class_target TaskName.multiclass cv target
        = Except.error "UnsplittableTargetError: class of target has only 1 sample, dataset cannot be splitted stratified")
    ∧ (1 < p.2 → p.2 < cv → 2 ≤ (cct_uniques target).length →
        ∃ out : CCTOut, check_class_target TaskName.multiclass cv target = Except.ok out
          ∧ out.cv = p.2 ∧ out.warned = true) := by
  refine ⟨value_counts_getLast_min hlast, ?_, ?_⟩
  · intro h1
    rw [check_class_target_multiclass_eq cv target p hlast, if_pos h1]
  · intro h1 h2 hk
    have h1' : ¬ p.2 = 1 := by omega
    rw [check_class_target_multiclass_eq cv target p hlast, if_neg h1', if_pos h2]
    by_cases hc : cct_srtd target = (List.range (cct_uniques target).length).map Int.ofNat
    · rw [cct_encode_contiguous_ok _ _ _ _ hc hk (fun hb => absurd hb (by decide))]
      exact ⟨_, rfl, rfl, rfl⟩
    · unfold cct_encode
      rw [if_neg hc]
      exact ⟨_, rfl, rfl, rfl⟩

/-- Claim C4 witness: the multiclass target `[1, 1, 2, 2, 2]` with `cv = 5` has
smallest class count 2, never raises, ends with `cv = 2` and emits the
warning. -/
theorem check_class_target_multiclass_cv_witness :
    ∃ out : CCTOut,
      check_class_target TaskName.multiclass 5 [(1 : ℤ), 1, 2, 2, 2] = Except.ok out
        ∧ out.cv = 2 ∧ out.warned = true := by
  have h := check_class_target_multiclass_cv 5 [(1 : ℤ), 1, 2, 2, 2] (1, 2) (by decide)
  exact h.2.2 (by decide) (by decide) (by decide)

/-- Claim C4 counterexample: the multiclass target `[0, 0, 0]` with `cv = 5`
has smallest class count 3 with `1 < 3 < 5`, yet `check_class_target` fails:
the fold count is reduced and the warning emitted, but validation then raises
on the unique-value assertion, refuting the claim that validation does not
fail whenever `1 < smallest < cv`. -/
theorem check_class_target_c4_cex :
    (value_counts [(0 : ℤ), 0, 0]).getLast? = some (0, 3)
    ∧ ((1 : ℕ) < 3 ∧ (3 : ℕ) < 5)
    ∧ check_class_target TaskName.multiclass 5 [(0 : ℤ), 0, 0]
        = Except.error "InvalidTargetError: less than 2 unique values in target" := by decide

/-- Claim C5: whenever the sorted distinct values of a target are exactly the
contiguous range `0..k-1` with `k ≥ 2` and `check_class_target` succeeds, it
returns the column unchanged with no mapping, and re-running it on its own
output (with the possibly-reduced fold count) is idempotent: the second run
succeeds with the same column, a `none` mapping, an unchanged fold count and
no warning. -/
theorem check_class_target_contiguous_idem (task : TaskName) (cv : ℕ)
    (target : List ℤ) (k : ℕ) (out : CCTOut)
    (hk : 2 ≤ k)
    (hsrtd : cct_srtd target = (List.range k).map Int.ofNat)
    (hok : check_class_target task cv target = Except.ok out) :
    out.target = target ∧ out.mapping = none
    ∧ check_class_target task out.cv target
        = Except.ok ⟨target, none, out.cv, false⟩ := by
  have hlen : (cct_uniques target).length = k := cct_uniques_length_of_srtd hsrtd
  have hc : cct_srtd target = (List.range (cct_uniques target).length).map Int.ofNat := by
    rw [hlen]; exact hsrtd
  have hk2 : 2 ≤ (cct_uniques target).length := by omega
  by_cases hmc : task = TaskName.multiclass
  · subst hmc
    cases hgl : (value_counts target).getLast? with
    | none =>
      have hnil : value_counts target = [] := List.getLast?_eq_none_iff.mp hgl
      rw [cct_uniques, hnil] at hk2
      simp at hk2
    | some p =>
      rw [check_class_target_multiclass_eq cv target p hgl] at hok
      by_cases h1 : p.2 = 1
      · rw [if_pos h1] at hok
        cases hok
      · rw [if_neg h1] at hok
        by_cases h2 : p.2 < cv
        · rw [if_pos h2] at hok
          obtain ⟨rfl, hbin⟩ := cct_encode_ok_inv _ _ _ _ _ hc hok
          refine ⟨rfl, rfl, ?_⟩
          show check_class_target TaskName.multiclass p.2 target
            = Except.ok ⟨target, none, p.2, false⟩
          rw [check_class_target_multiclass_eq p.2 target p hgl, if_neg h1,
            if_neg (by omega : ¬ p.2 < p.2)]
          exact cct_encode_contiguous_ok _ _ _ _ hc hk2 hbin
        · rw [if_neg h2] at hok
          obtain ⟨rfl, hbin⟩ := cct_encode_ok_inv _ _ _ _ _ hc hok
          refine ⟨rfl, rfl, ?_⟩
          show check_class_target TaskName.multiclass cv target
            = Except.ok ⟨target, none, cv, false⟩
          rw [check_class_target_multiclass_eq cv target p hgl, if_neg h1, if_neg h2]
          exact cct_encode_contiguous_ok _ _ _ _ hc hk2 hbin
  · rw [check_class_target_not_mc_eq task cv target hmc] at hok
    obtain ⟨rfl, hbin⟩ := cct_encode_ok_inv _ _ _ _ _ hc hok
    refine ⟨rfl, rfl, ?_⟩
    show check_class_target task cv target = Except.ok ⟨target, none, cv, false⟩
    rw [check_class_target_not_mc_eq task cv target hmc]
    exact cct_encode_contiguous_ok _ _ _ _ hc hk2 hbin

/-- Claim C5 witness: the multiclass target `[0, 0, 1, 1]` (distinct values
exactly `0..1`) with `cv = 2` is returned unchanged with a `none` mapping, and
re-running `check_class_target` on the output reproduces it. -/
theorem check_class_target_contiguous_idem_witness :
    check_class_target TaskName.multiclass 2 [(0 : ℤ), 0, 1, 1]
      = Except.ok ⟨[(0 : ℤ), 0, 1, 1], none, 2, false⟩ := by
  have h := check_class_target_contiguous_idem TaskName.multiclass 2
    [(0 : ℤ), 0, 1, 1] 2 ⟨[(0 : ℤ), 0, 1, 1], none, 2, false⟩
    (by decide) (by decide) (by decide)
  exact h.2.2

/-- Claim C3 (amended): for an empty column sample the role guesser returns a
Numeric role — the numeric cast `astype` succeeds vacuously on an empty
column, so the guess never reaches the datetime or category branches,
whatever the timezone-probe attribute says. -/
theorem guess_role_empty (tz : TzOut) :
    guess_role ⟨[], tz⟩ = Except.ok ⟨RName.numeric, false, "float32"⟩ := rfl

/-- Claim C3 counterexample: on an empty column sample the role guesser
returns Numeric, not Category as claimed. -/
theorem guess_role_empty_cex :
    guess_role ⟨[], TzOut.ok⟩ = Except.ok ⟨RName.numeric, false, "float32"⟩
    ∧ RName.numeric ≠ RName.category := by decide

/-- Claim C6: for a column sample that is not numeric-castable and parses
successfully as datetime, a `TypeError` from the timezone-localization probe
yields exactly the Datetime role of the success outcome; any other probe
exception yields Category(object); and a caught parse failure of the datetime
step itself (`ValueError`, `AttributeError` or `TypeError`) yields
Category(object) for any probe attribute. -/
theorem guess_role_datetime_tz (cells : List Cell)
    (hnum : cells.all (fun c => c.num_castable) = false) :
    (column_dt_parse cells = DtParse.ok →
      guess_role ⟨cells, TzOut.typeError⟩
          = Except.ok ⟨RName.datetime, false, "datetime64"⟩
        ∧ guess_role ⟨cells, TzOut.ok⟩
          = Except.ok ⟨RName.datetime, false, "datetime64"⟩
        ∧ guess_role ⟨cells, TzOut.otherError⟩
          = Except.ok ⟨RName.category, false, "object"⟩)
    ∧ (∀ tz : TzOut,
        (column_dt_parse cells = DtParse.valueError
          ∨ column_dt_parse cells = DtParse.attributeError
          ∨ column_dt_parse cells = DtParse.typeError) →
        guess_role ⟨cells, tz⟩ = Except.ok ⟨RName.category, false, "object"⟩) := by
  constructor
  · intro hdt
    refine ⟨?_, ?_, ?_⟩ <;>
      simp only [guess_role, hnum, Bool.false_eq_true, if_false, hdt]
  · intro tz hdt
    rcases hdt with h | h | h <;>
      simp only [guess_role, hnum, Bool.false_eq_true, if_false, h]

/-- Claim C6 witness: a single-cell column that is not numeric-castable and
parses as datetime, with a timezone probe raising `TypeError`, still gets the
Datetime role. -/
theorem guess_role_datetime_tz_witness :
    guess_role ⟨[⟨false, 0, false, DtParse.ok⟩], TzOut.typeError⟩
      = Except.ok ⟨RName.datetime, false, "datetime64"⟩ := by
  have h := guess_role_datetime_tz [⟨false, 0, false, DtParse.ok⟩] (by decide)
  exact (h.1 (by decide)).1

/-- Claim C7: the sequential windowed-target alignment fails with the
misaligned-index error exactly when the windowed target is non-null and its
length differs from the produced data-index length; when the windowed target
is null no check is made and the data index is used unchanged. -/
theorem parse_seq_align_spec (idx_data : List (List ℕ))
    (idx_target : Option (List (List ℕ))) :
    (except_failed (parse_seq_align idx_data idx_target) = true ↔
      ∃ tgt, idx_target = some tgt ∧ tgt.length ≠ idx_data.length)
    ∧ parse_seq_align idx_data none = Except.ok idx_data := by
  refine ⟨?_, rfl⟩
  cases idx_target with
  | none => simp [parse_seq_align, except_failed]
  | some t =>
    by_cases h : idx_data.length = t.length
    · simp only [parse_seq_align, if_pos h, except_failed, Bool.false_eq_true, false_iff]
      rintro ⟨tgt, htgt, hlen⟩
      cases htgt
      exact hlen h.symm
    · simp only [parse_seq_align, if_neg h, except_failed, true_iff]
      exact ⟨t, rfl, fun hh => h hh.symm⟩

/-- Claim C9: the inference subsample of `fit_read` is drawn with the
constant seed 42, so two readers that differ only in `random_state` produce
the identical subsample and the identical simple role-inference result on
any table. -/
theorem simple_guess_random_state_invariant (cfg : ReaderCfg) (r : ℕ) (t : Table) :
    fit_read_subsample {cfg with random_state := r} t.rows
        = fit_read_subsample cfg t.rows
    ∧ simple_infer_roles {cfg with random_state := r} t = simple_infer_roles cfg t :=
  ⟨rfl, rfl⟩

theorem mem_py_set_list {l : List String} {x : String} :
    x ∈ py_set_list l ↔ x ∈ l := by
  unfold py_set_list
  rw [List.mem_dedup, (List.perm_insertionSort str_le l).mem_iff]

theorem nodup_py_set_list (l : List String) : (py_set_list l).Nodup :=
  List.nodup_dedup _

/-- Claim C10: `upd_used_features` leaves the used-feature collection equal,
as a set, to `(previous ∪ add) \ remove` with duplicates collapsed, but the
result is rebuilt from an unordered set: it does not preserve the insertion
order of the previous list (witnessed by `["b", "a"]`). -/
theorem upd_used_features_spec (used : List String)
    (add remove : Option (List String)) :
    (upd_used_features used add remove).toFinset
      = (used.toFinset ∪ (add.getD []).toFinset) \ (remove.getD []).toFinset
    ∧ (upd_used_features used add remove).Nodup
    ∧ upd_used_features ["b", "a"] none none ≠ ["b", "a"] := by
  refine ⟨?_, ?_, by decide⟩
  · cases add with
    | none =>
      cases remove with
      | none =>
        ext x
        simp [upd_used_features, mem_py_set_list]
      | some rm =>
        ext x
        simp [upd_used_features, mem_py_set_list, List.mem_filter]
    | some a =>
      cases remove with
      | none =>
        ext x
        simp [upd_used_features, mem_py_set_list, or_comm]
      | some rm =>
        ext x
        simp [upd_used_features, mem_py_set_list, List.mem_filter, or_comm]
  · cases add with
    | none =>
      cases remove with
      | none => exact nodup_py_set_list _
      | some rm => exact (nodup_py_set_list _).filter _
    | some a =>
      cases remove with
      | none => exact nodup_py_set_list _
      | some rm => exact (nodup_py_set_list _).filter _

theorem le_foldr_max {l : List ℕ} {a : ℕ} (h : a ∈ l) : a ≤ l.foldr max 0 := by
  induction l with
  | nil => cases h
  | cons b t ih =>
    rcases List.mem_cons.mp h with rfl | h
    · exact le_max_left _ _
    · exact le_trans (ih h) (le_max_right _ _)

theorem foldr_max_le {l : List ℕ} {b : ℕ} (h : ∀ a ∈ l, a ≤ b) :
    l.foldr max 0 ≤ b := by
  induction l with
  | nil => simp
  | cons c t ih =>
    simp only [List.foldr_cons]
    exact max_le (h c (by simp)) (ih (fun a ha => h a (by simp [ha])))

theorem value_counts_head_max {t : List ℤ} {y : ℤ × ℕ}
    (hy : (value_counts t).head? = some y) :
    ∀ x ∈ value_counts t, x.2 ≤ y.2 := by
  intro x hx
  cases hvc : value_counts t with
  | nil =>
    rw [hvc] at hy
    cases hy
  | cons a l =>
    rw [hvc] at hy
    injection hy with hy
    subst hy
    have hs := sorted_value_counts t
    rw [hvc] at hs hx
    rcases List.mem_cons.mp hx with rfl | hx
    · exact le_rfl
    · exact (List.sorted_cons.mp hs).1 x hx

theorem value_counts_head_eq_max {col : List (Option ℤ)} {y : ℤ × ℕ}
    (hy : (value_counts (col.filterMap id)).head? = some y) :
    y.2 = most_freq_top col := by
  have hmem : y ∈ value_counts (col.filterMap id) :=
    List.mem_of_mem_head? (Option.mem_def.mpr hy)
  obtain ⟨hmem1, hcount⟩ := mem_value_counts.mp hmem
  unfold most_freq_top
  apply le_antisymm
  · rw [hcount]
    exact le_foldr_max (List.mem_map.mpr ⟨y.1, hmem1, rfl⟩)
  · apply foldr_max_le
    intro a ha
    rcases List.mem_map.mp ha with ⟨v, hv, rfl⟩
    exact value_counts_head_max hy (v, (col.filterMap id).count v)
      (mem_value_counts.mpr ⟨hv, rfl⟩)

/-- Claim C8: on a non-empty column with a nan-rate parameter that is a
genuine rate (`max_nan_rate ≤ 1`), `_is_ok_feature` returns false exactly
when the missing fraction reaches `max_nan_rate` or the share of the most
frequent value reaches `max_constant_rate`, and true otherwise; in
particular a 100%-missing column is rejected for any `max_nan_rate < 1`. -/
theorem is_ok_feature_spec (max_nan_rate max_constant_rate : ℚ)
    (col : List (Option ℤ)) (hne : col ≠ []) (hrate : max_nan_rate ≤ 1) :
    is_ok_feature max_nan_rate max_constant_rate col
      = some ((decide (null_frac col < max_nan_rate))
          && (decide (most_freq_share col < max_constant_rate))) := by
  unfold is_ok_feature
  by_cases h1 : null_frac col ≥ max_nan_rate
  · rw [if_pos h1, decide_eq_false (not_lt.mpr h1)]
    simp
  · have hlt : null_frac col < max_nan_rate := lt_of_not_ge h1
    rw [if_neg h1, decide_eq_true hlt]
    have hlen : 0 < col.length := List.length_pos.mpr hne
    have hcount : col.countP (fun c => c.isNone) < col.length := by
      rcases lt_or_eq_of_le (List.countP_le_length (p := fun c => c.isNone) (l := col))
        with h | h
      · exact h
      · exfalso
        have hlen0 : (col.length : ℚ) ≠ 0 := by
          exact_mod_cast hlen.ne'
        have hone : null_frac col = 1 := by
          unfold null_frac
          rw [h, Rat.mkRat_eq_div]
          push_cast
          exact div_self hlen0
        rw [hone] at hlt
        exact absurd (lt_of_lt_of_le hlt hrate) (lt_irrefl 1)
    obtain ⟨a, ha, hna⟩ : ∃ a ∈ col, ¬ (a.isNone = true) := by
      by_contra hall
      push_neg at hall
      have hall2 := (List.countP_eq_length (p := fun c => c.isNone)).mpr
        (fun a ha => hall a ha)
      omega
    have hnnil : col.filterMap id ≠ [] := by
      cases a with
      | none => simp at hna
      | some v =>
        exact List.ne_nil_of_mem (List.mem_filterMap.mpr ⟨some v, ha, rfl⟩)
    obtain ⟨p, hp⟩ : ∃ p, (value_counts (col.filterMap id)).head? = some p := by
      cases hvc : value_counts (col.filterMap id) with
      | nil =>
        exfalso
        obtain ⟨v, hv⟩ := List.exists_mem_of_ne_nil _ hnnil
        have : (v, (col.filterMap id).count v) ∈ value_counts (col.filterMap id) :=
          mem_value_counts.mpr ⟨hv, rfl⟩
        rw [hvc] at this
        cases this
      | cons q l => exact ⟨q, rfl⟩
    rw [hp]
    have hshare : most_freq_share col = mkRat (p.2 : ℤ) col.length := by
      unfold most_freq_share
      rw [← value_counts_head_eq_max hp]
    show (if mkRat (p.2 : ℤ) col.length ≥ max_constant_rate
      then some false else some true) = _
    by_cases h2 : mkRat (p.2 : ℤ) col.length ≥ max_constant_rate
    · rw [if_pos h2, decide_eq_false (not_lt.mpr (hshare ▸ h2))]
      rfl
    · rw [if_neg h2, decide_eq_true (by rw [hshare]; exact lt_of_not_ge h2)]
      rfl

/-- Claim C8 witness: a non-empty, 100%-missing column is rejected for the
nan rate 1/2 (an instance of the claim for `max_nan_rate < 1`). -/
theorem is_ok_feature_spec_witness :
    is_ok_feature (mkRat 1 2) 1 [(none : Option ℤ), none] = some false := by
  have h := is_ok_feature_spec (mkRat 1 2) 1 [(none : Option ℤ), none]
    (by decide) (by decide)
  rw [h]
  decide

theorem alookup_mem {α β : Type} [DecidableEq α] {l : List (α × β)} {k : α} {b : β}
    (h : alookup l k = some b) : (k, b) ∈ l := by
  induction l with
  | nil => cases h
  | cons p t ih =>
    simp only [alookup] at h
    by_cases hp : p.1 = k
    · rw [if_pos hp] at h
      injection h with h
      exact List.mem_cons.mpr (Or.inl (Prod.ext hp.symm h.symm))
    · rw [if_neg hp] at h
      exact List.mem_cons.mpr (Or.inr (ih h))

theorem alookup_keyed_map {α β γ : Type} [DecidableEq α] (g : α → β → γ)
    (l : List (α × β)) (k : α) :
    alookup (l.map (fun p => (p.1, g p.1 p.2))) k = (alookup l k).map (g k) := by
  induction l with
  | nil => rfl
  | cons p t ih =>
    simp only [List.map_cons, alookup]
    by_cases hp : p.1 = k
    · rw [if_pos hp, if_pos hp]
      subst hp
      rfl
    · rw [if_neg hp, if_neg hp]
      exact ih

theorem alookup_append_left {α β : Type} [DecidableEq α] {l₁ : List (α × β)}
    (l₂ : List (α × β)) {k : α} {b : β} (h : alookup l₁ k = some b) :
    alookup (l₁ ++ l₂) k = some b := by
  induction l₁ with
  | nil => cases h
  | cons p t ih =>
    simp only [alookup, List.cons_append] at h ⊢
    by_cases hp : p.1 = k
    · rw [if_pos hp] at h ⊢
      exact h
    · rw [if_neg hp] at h ⊢
      exact ih h

theorem alookup_map_const {α β : Type} [DecidableEq α] (c : β) {l : List α}
    {k : α} (h : k ∈ l) :
    alookup (l.map (fun f => (f, c))) k = some c := by
  induction l with
  | nil => cases h
  | cons a t ih =>
    simp only [List.map_cons, alookup]
    by_cases ha : a = k
    · rw [if_pos ha]
    · rw [if_neg ha]
      exact ih ((List.mem_cons.mp h).resolve_left (fun hh => ha hh.symm))

theorem alookup_filter_of_mem {l : List (String × Role)} {dl : List String}
    {k : String} (h : k ∈ dl) :
    alookup (l.filter (fun p => ¬ p.1 ∈ dl)) k = none := by
  induction l with
  | nil => rfl
  | cons p t ih =>
    by_cases hp : p.1 ∈ dl
    · have hd : (decide ¬ p.1 ∈ dl) = false := by simp [hp]
      rw [List.filter_cons, hd]
      simpa using ih
    · have hd : (decide ¬ p.1 ∈ dl) = true := by simp [hp]
      rw [List.filter_cons, hd]
      simp only [if_pos]
      simp only [alookup]
      rw [if_neg (fun hh => hp (by rw [hh]; exact h))]
      exact ih

theorem alookup_filter_of_not_mem {l : List (String × Role)} {dl : List String}
    {k : String} (h : ¬ k ∈ dl) :
    alookup (l.filter (fun p => ¬ p.1 ∈ dl)) k = alookup l k := by
  induction l with
  | nil => rfl
  | cons p t ih =>
    by_cases hp : p.1 ∈ dl
    · have hd : (decide ¬ p.1 ∈ dl) = false := by simp [hp]
      rw [List.filter_cons, hd]
      have hpk : ¬ p.1 = k := fun hh => h (hh ▸ hp)
      simp only [Bool.false_eq_true, if_false, alookup, if_neg hpk]
      exact ih
    · have hd : (decide ¬ p.1 ∈ dl) = true := by simp [hp]
      rw [List.filter_cons, hd]
      simp only [if_pos, alookup]
      by_cases hpk : p.1 = k
      · rw [if_pos hpk, if_pos hpk]
      · rw [if_neg hpk, if_neg hpk]
        exact ih

theorem alookup_dict_update {d u : List (String × Role)} {k : String} {v : Role}
    (hd : alookup d k = some v) :
    alookup (dict_update d u) k = some ((alookup u k).getD v) := by
  unfold dict_update
  apply alookup_append_left
  rw [alookup_keyed_map (fun a b => (alookup u a).getD b) d k, hd]
  rfl

theorem mem_upd_used_features_remove {used dl : List String} {x : String} :
    x ∈ upd_used_features used none (some dl) ↔ x ∈ used ∧ ¬ x ∈ dl := by
  unfold upd_used_features
  simp [List.mem_filter, mem_py_set_list]

/-- Claim C2 (amended): in the advanced-role pass, every scored feature whose
final score `max(null_score, real_score)` is below `drop_score_co` is marked
Drop; if its previous role is not force-pinned, the feature is removed from
the used-feature set and from the final role dict; if `force_input` is set,
the feature survives in the used-feature set, but its entry in the final
role dict is `DropRole()` — not a non-Drop role. -/
theorem advanced_drop_pass_spec (self_roles : List (String × Role))
    (used : List String) (rule_roles : List (String × Role))
    (real : List (String × ℚ)) (null_score : String → ℚ) (drop_co : ℚ)
    (f : String) (s : ℚ) (r : Role)
    (hreal : alookup real f = some s)
    (hscore : max_q (null_score f) s < drop_co)
    (hself : alookup self_roles f = some r) :
    (r.force_input = false →
      ¬ f ∈ (fit_read_advanced self_roles used rule_roles real null_score drop_co).2
      ∧ alookup
          (fit_read_advanced self_roles used rule_roles real null_score drop_co).1 f
          = none)
    ∧ (r.force_input = true →
      (f ∈ used →
        f ∈ (fit_read_advanced self_roles used rule_roles real null_score drop_co).2)
      ∧ alookup
          (fit_read_advanced self_roles used rule_roles real null_score drop_co).1 f
          = some drop_role) := by
  have hrej : f ∈ rejected_feats real null_score drop_co := by
    unfold rejected_feats
    refine List.mem_map.mpr ⟨(f, max_q (null_score f) s), ?_, rfl⟩
    refine List.mem_filter.mpr ⟨List.mem_map.mpr ⟨(f, s), alookup_mem hreal, rfl⟩, ?_⟩
    exact decide_eq_true hscore
  have hU : alookup ((rejected_feats real null_score drop_co).map
      (fun g => (g, drop_role))) f = some drop_role :=
    alookup_map_const drop_role hrej
  have hM : alookup (dict_update self_roles rule_roles) f
      = some ((alookup rule_roles f).getD r) := alookup_dict_update hself
  have hNR : alookup
      (advanced_roles_tail self_roles rule_roles real null_score drop_co) f
      = some drop_role := by
    unfold advanced_roles_tail
    rw [alookup_dict_update hM, hU]
    rfl
  have hforce : force_of self_roles f = r.force_input := by
    unfold force_of
    rw [hself]
    rfl
  constructor
  · intro hf
    have hfd : f ∈ prune_droplist self_roles
        (advanced_roles_tail self_roles rule_roles real null_score drop_co) := by
      unfold prune_droplist
      refine List.mem_map.mpr ⟨(f, drop_role), ?_, rfl⟩
      refine List.mem_filter.mpr ⟨alookup_mem hNR, ?_⟩
      exact decide_eq_true ⟨rfl, by rw [hforce]; exact hf⟩
    constructor
    · unfold fit_read_advanced fit_read_prune
      intro hmem
      exact (mem_upd_used_features_remove.mp hmem).2 hfd
    · unfold fit_read_advanced fit_read_prune
      exact alookup_filter_of_mem hfd
  · intro hf
    have hnd : ¬ f ∈ prune_droplist self_roles
        (advanced_roles_tail self_roles rule_roles real null_score drop_co) := by
      intro hmem
      unfold prune_droplist at hmem
      rcases List.mem_map.mp hmem with ⟨q, hq, hq1⟩
      rcases List.mem_filter.mp hq with ⟨-, hpred⟩
      have hpred2 := of_decide_eq_true hpred
      rw [hq1, hforce, hf] at hpred2
      cases hpred2.2
    constructor
    · intro hu
      unfold fit_read_advanced fit_read_prune
      exact mem_upd_used_features_remove.mpr ⟨hu, hnd⟩
    · unfold fit_read_advanced fit_read_prune
      rw [alookup_filter_of_not_mem hnd]
      exact hNR

/-- Claim C2 counterexample: a force-pinned feature `f` scored below
`drop_score_co` stays in the used features, but its entry in the final role
mapping is `DropRole()` — refuting the claim that it keeps a non-Drop role. -/
theorem advanced_drop_force_cex :
    alookup (fit_read_advanced [("f", ⟨RName.numeric, true, "float32"⟩)] ["f"]
      [] [("f", 0)] (fun _ => 0) (mkRat 1 100)).1 "f" = some drop_role
    ∧ "f" ∈ (fit_read_advanced [("f", ⟨RName.numeric, true, "float32"⟩)] ["f"]
      [] [("f", 0)] (fun _ => 0) (mkRat 1 100)).2
    ∧ drop_role.name = RName.drop := by decide

/-- Claim C2 witness: a non-pinned feature `g` scored below `drop_score_co`
is removed from the used-feature set. -/
theorem advanced_drop_pass_spec_witness :
    ¬ "g" ∈ (fit_read_advanced [("g", ⟨RName.numeric, false, "float32"⟩)] ["g"]
      [] [("g", 0)] (fun _ => 0) (mkRat 1 100)).2 := by
  have h := advanced_drop_pass_spec [("g", ⟨RName.numeric, false, "float32"⟩)]
    ["g"] [] [("g", 0)] (fun _ => 0) (mkRat 1 100) "g" 0
    ⟨RName.numeric, false, "float32"⟩ (by decide) (by decide) (by decide)
  exact (h.1 rfl).1
